import Mathlib

/-!
Shallow embedding of `postgresql-query` (Elva), a Node.js convenience layer
over the `pg` client.  The repository ships two generations of the module in
`src/postgresql-query.js`: a legacy callback-only version (using
`queryTasks`, `pgTransaction`) and the current pool/promise version (using
`query`/`queryStandard`/`queryObject`/`queryArray`, `newTransaction`,
`getTransactionObject`, `insert`/`update` wrappers).  Both are embedded here
where the claims reference them.  JavaScript values are modelled by the
inductive `JsValue`; the `pg` driver and the connection pool are modelled as
oracles passed to the embedded executors.
-/

namespace PgQuery

/-- JavaScript runtime values, as far as this library inspects them:
`undefined`, `null`, booleans, (integer) numbers, strings, arrays and plain
objects (an ordered list of own enumerable properties, mirroring the
insertion order that `Object.keys` reports). -/
inductive JsValue where
  | undefined : JsValue
  | null : JsValue
  | bool (b : Bool) : JsValue
  | num (n : Int) : JsValue
  | str (s : String) : JsValue
  | arr (elems : List JsValue) : JsValue
  | obj (props : List (String × JsValue)) : JsValue
deriving Repr

/-- `typeof q === 'string'`. -/
def isString : JsValue → Bool
  | .str _ => true
  | _ => false

/-- `Array.isArray(q)`. -/
def isArray : JsValue → Bool
  | .arr _ => true
  | _ => false

/-- Source `isObject`: `Object.prototype.toString.call(obj) === '[object Object]'`,
true exactly for plain objects (not null, not arrays, not primitives). -/
def isObject : JsValue → Bool
  | .obj _ => true
  | _ => false

/-- `v === undefined`. -/
def isUndefined : JsValue → Bool
  | .undefined => true
  | _ => false

/-- JavaScript truthiness of a value. -/
def jsTruthy : JsValue → Bool
  | .undefined => false
  | .null => false
  | .bool b => b
  | .num n => n != 0
  | .str s => s != ""
  | .arr _ => true
  | .obj _ => true

/-- Property read `o[k]` on a plain object: first matching own property. -/
def lookupProp : List (String × JsValue) → String → Option JsValue
  | [], _ => none
  | (k, v) :: rest, key => if k == key then some v else lookupProp rest key

mutual

/-- JavaScript `ToString` on the values this library concatenates into SQL
(`'…' + v`).  Arrays stringify as their comma-joined elements with `null`
and `undefined` elements rendering empty, plain objects as
`[object Object]`. -/
def jsToString : JsValue → String
  | .undefined => "undefined"
  | .null => "null"
  | .bool b => if b then "true" else "false"
  | .num n => toString n
  | .str s => s
  | .arr elems => jsToStringList elems
  | .obj _ => "[object Object]"

def jsToStringList : List JsValue → String
  | [] => ""
  | v :: rest =>
    (match v with
     | .undefined => ""
     | .null => ""
     | w => jsToString w)
    ++ (if rest.isEmpty then "" else ",") ++ jsToStringList rest

end

/-- `ToLength` of a property value, as `Function.prototype.apply` uses it on
an array-like object.  Integers clamp below at 0; `undefined`/`null` give 0;
booleans give 0/1; digit-only strings parse, other strings (and objects,
whose `ToPrimitive` this library never exercises) give 0. -/
def jsToLength : JsValue → Nat
  | .num n => n.toNat
  | .bool b => if b then 1 else 0
  | .str s => (s.toNat?).getD 0
  | _ => 0

/-- Source `flatArray` array-likeness test:
`arg && typeof arg === 'object' && arg.length !== undefined`.
Arrays always qualify; a plain object qualifies exactly when it has a
`length` property that is not `undefined`; primitives and `null` never do. -/
def isArrayLike : JsValue → Bool
  | .arr _ => true
  | .obj props =>
    match lookupProp props "length" with
    | some v => !(isUndefined v)
    | none => false
  | _ => false

/-- The argument list that `flatArray.apply(null, arg)` receives: a real
array spreads to its elements; an array-like object spreads to properties
`"0" … String(len-1)` (missing indices read as `undefined`) where `len` is
the `ToLength` of its `length` property. -/
def spreadArgs : JsValue → List JsValue
  | .arr elems => elems
  | .obj props =>
    let len := jsToLength ((lookupProp props "length").getD .undefined)
    (List.range len).map (fun i => (lookupProp props (toString i)).getD .undefined)
  | v => [v]

mutual

/-- Nesting rank used only to justify termination of `flatArray`:
scalars have rank 0, arrays and objects rank one more than the maximum rank
of their elements / property values. -/
def rank : JsValue → Nat
  | .undefined => 0
  | .null => 0
  | .bool _ => 0
  | .num _ => 0
  | .str _ => 0
  | .arr elems => 1 + rankList elems
  | .obj props => 1 + rankProps props

def rankList : List JsValue → Nat
  | [] => 0
  | v :: rest => max (rank v) (rankList rest)

def rankProps : List (String × JsValue) → Nat
  | [] => 0
  | (_, v) :: rest => max (rank v) (rankProps rest)

end

theorem rank_lookupProp_le (props : List (String × JsValue)) (key : String) :
    rank ((lookupProp props key).getD .undefined) ≤ rankProps props := by
  induction props with
  | nil => simp [lookupProp, rank]
  | cons p rest ih =>
    obtain ⟨k, v⟩ := p
    by_cases h : (k == key) = true
    · simp [lookupProp, h, rankProps]
    · simp only [lookupProp, h, Bool.false_eq_true, if_false]
      exact le_trans ih (by simp [rankProps])

theorem rankList_map_le {α : Type} (f : α → JsValue) (b : Nat) (l : List α)
    (h : ∀ a ∈ l, rank (f a) ≤ b) : rankList (l.map f) ≤ b := by
  induction l with
  | nil => simp [rankList]
  | cons a rest ih =>
    simp only [List.map_cons, rankList, max_le_iff]
    exact ⟨h a (by simp), ih (fun x hx => h x (by simp [hx]))⟩

theorem rankList_spread_lt (v : JsValue) (h : isArrayLike v = true) :
    rankList (spreadArgs v) < rank v := by
  cases v with
  | arr elems => simp [spreadArgs, rank]
  | obj props =>
    have hb : rankList (spreadArgs (.obj props)) ≤ rankProps props := by
      simp only [spreadArgs]
      exact rankList_map_le _ _ _
        (fun i _ => rank_lookupProp_le props (toString i))
    calc rankList (spreadArgs (.obj props)) ≤ rankProps props := hb
      _ < rank (.obj props) := by simp [rank]
  | undefined => simp [isArrayLike] at h
  | null => simp [isArrayLike] at h
  | bool b => simp [isArrayLike] at h
  | num n => simp [isArrayLike] at h
  | str s => simp [isArrayLike] at h

theorem rank_le_rankList_cons (a : JsValue) (rest : List JsValue) :
    rank a ≤ rankList (a :: rest) := by
  simp [rankList]

theorem rankList_rest_le (a : JsValue) (rest : List JsValue) :
    rankList rest ≤ rankList (a :: rest) := by
  simp [rankList]

/-- Source `flatArray`: for each argument, an array-like argument is
recursively flattened via `flatArray.apply(null, arg)` and concatenated,
any other argument is pushed as-is. -/
def flatArray : List JsValue → List JsValue
  | [] => []
  | a :: rest =>
    if isArrayLike a then flatArray (spreadArgs a) ++ flatArray rest
    else a :: flatArray rest
termination_by l => (rankList l, l.length)
decreasing_by
  · simp_wf
    apply Prod.Lex.left
    exact lt_of_lt_of_le (rankList_spread_lt _ (by assumption))
      (rank_le_rankList_cons _ _)
  · simp_wf
    rcases lt_or_eq_of_le (rankList_rest_le v rest) with hlt | heq
    · exact Prod.Lex.left _ _ hlt
    · rw [heq]
      exact Prod.Lex.right _ (by simp)
  · simp_wf
    rcases lt_or_eq_of_le (rankList_rest_le v rest) with hlt | heq
    · exact Prod.Lex.left _ _ hlt
    · rw [heq]
      exact Prod.Lex.right _ (by simp)

theorem flatArray_nil : flatArray [] = [] := by
  simp [flatArray]

theorem flatArray_cons (a : JsValue) (rest : List JsValue) :
    flatArray (a :: rest) =
      if isArrayLike a then flatArray (spreadArgs a) ++ flatArray rest
      else a :: flatArray rest := by
  rw [flatArray]

/-! ## Statement builders (`buildInsertQuery`, `buildUpdateQuery`)

The descriptor object `{table, fields, where?, returnValue?}` is embedded as
`QueryData`.  `fields` and `where` keep the property order that
`Object.keys` iterates.  `where` is a Lean keyword, so the field is named
`whereFields`; `some l` models a present (hence truthy) `where` object with
properties `l`, `none` models an absent (`undefined`, hence falsy) one.
The builders accumulate the SQL string exactly as the source's `forEach`
loops do; each loop's contribution is kept as a list of per-field fragments
(fragment = the text the iteration appends, including its trailing
separator) whose concatenation is spliced into the surrounding string. -/

structure QueryData where
  table : String
  fields : List (String × JsValue)
  whereFields : Option (List (String × JsValue))
  returnValue : JsValue

structure BuiltQuery where
  sql : String
  values : List JsValue
deriving Repr

/-- `field === 'sort_order' && val === 'auto'` — the exact-equality sentinel
test in `buildInsertQuery`. -/
def sortOrderAuto (field : String) (val : JsValue) : Bool :=
  field == "sort_order" &&
    (match val with
     | .str s => s == "auto"
     | _ => false)

/-- The literal subquery `buildInsertQuery` emits for the
`sort_order: "auto"` sentinel. -/
def coalesceSubquery (table : String) : String :=
  "(SELECT COALESCE(MAX(sort_order), 0) + 1 FROM " ++ table ++ ")"

/-- First `forEach` of `buildInsertQuery`: the column list,
`field + (isLastField ? ' ' : ', ')` per field. -/
def insertColumns : List (String × JsValue) → String
  | [] => ""
  | (field, _) :: rest =>
    field ++ (if rest.isEmpty then " " else ", ") ++ insertColumns rest

/-- Second `forEach` of `buildInsertQuery`, threading the mutable `pIndex`
and `values`: per field, either the COALESCE subquery (sentinel match, no
bind value) or `'$' + (pIndex += 1)` with the value pushed, followed by the
separator.  Returns (fragments, final pIndex, pushed values). -/
def insertValuesFrags (table : String) :
    List (String × JsValue) → Nat → List String × Nat × List JsValue
  | [], p => ([], p, [])
  | (field, val) :: rest, p =>
    let auto := sortOrderAuto field val
    let frag := if auto then coalesceSubquery table else "$" ++ toString (p + 1)
    let pNext := if auto then p else p + 1
    let r := insertValuesFrags table rest pNext
    ((frag ++ (if rest.isEmpty then " " else ", ")) :: r.1, r.2.1,
     (if auto then r.2.2 else val :: r.2.2))

/-- Source `buildInsertQuery`. -/
def buildInsertQuery (data : QueryData) : BuiltQuery :=
  let r := insertValuesFrags data.table data.fields 0
  { sql := "INSERT INTO " ++ data.table ++ " ( " ++ insertColumns data.fields
      ++ ") VALUES ( " ++ String.join r.1 ++ ")"
      ++ (if jsTruthy data.returnValue
          then " RETURNING " ++ jsToString data.returnValue else ""),
    values := r.2.2 }

/-- `isObject(val) && Object.keys(val).length` — the merge test in
`buildUpdateQuery`: a plain object with at least one own property. -/
def isNonEmptyObject : JsValue → Bool
  | .obj (_ :: _) => true
  | _ => false

/-- `fields.forEach` of `buildUpdateQuery`: per field at 0-based index `i`,
`pIndex = i + 1`; a non-empty plain-object value renders
`field = field || $pIndex` (merge), anything else `field = $pIndex`
(replace); the value is pushed in both cases. -/
def updateSetFrags : List (String × JsValue) → Nat → List String × List JsValue
  | [], _ => ([], [])
  | (field, val) :: rest, i =>
    let pIndex := i + 1
    let frag :=
      if isNonEmptyObject val
      then field ++ " = " ++ field ++ " || $" ++ toString pIndex
      else field ++ " = $" ++ toString pIndex
    let r := updateSetFrags rest (i + 1)
    ((frag ++ (if rest.isEmpty then " " else ", ")) :: r.1, val :: r.2)

/-- `where.forEach` of `buildUpdateQuery`: `pIndex = fields.length + i + 1`,
clauses joined by `' AND '`, each value pushed. -/
def updateWhereFrags (fieldsLen : Nat) :
    List (String × JsValue) → Nat → List String × List JsValue
  | [], _ => ([], [])
  | (field, val) :: rest, i =>
    let pIndex := fieldsLen + i + 1
    let r := updateWhereFrags fieldsLen rest (i + 1)
    ((field ++ " = $" ++ toString pIndex
        ++ (if rest.isEmpty then " " else " AND ")) :: r.1,
     val :: r.2)

/-- Source `buildUpdateQuery`.  Only ever invoked when `data.where` is
truthy, so an absent `where` is read as the empty property list here. -/
def buildUpdateQuery (data : QueryData) : BuiltQuery :=
  let w := data.whereFields.getD []
  let s := updateSetFrags data.fields 0
  let c := updateWhereFrags data.fields.length w 0
  { sql := "UPDATE " ++ data.table ++ " SET " ++ String.join s.1
      ++ " WHERE " ++ String.join c.1
      ++ (if jsTruthy data.returnValue
          then " RETURNING " ++ jsToString data.returnValue else ""),
    values := s.2 ++ c.2 }

/-! ## Batch executors

A batch task is either a plain object (`isObject(item)` — a Statement
Descriptor, compiled through the builders, UPDATE when `where` is truthy)
or an array `[sql, ...params]`.  The database driver is an oracle
`exec : Nat → JsValue × List JsValue → Except JsValue (List JsValue)`
mapping the position of the `client.query` call in the batch and the
statement it is given to either an error or the result rows; `await`ing the
driver is the only suspension point, so the recursion order of the embedded
loop is exactly the temporal order of the source's sequential loop. -/

inductive BatchTask where
  | descriptor (d : QueryData)
  | raw (item : List JsValue)

/-- Statement compiled for a task by the current `queryArray` /
`transactionQueryArray`: a descriptor goes through
`item.where ? buildUpdateQuery : buildInsertQuery`; an array task is
`(item[0], item.slice(1))`; either way the parameters pass through
`flatArray` before `client.query`. -/
def taskStatementNew (task : BatchTask) : JsValue × List JsValue :=
  match task with
  | .descriptor d =>
    let q := if d.whereFields.isSome then buildUpdateQuery d else buildInsertQuery d
    (.str q.sql, flatArray q.values)
  | .raw item => (item.headD .undefined, flatArray (item.drop 1))

/-- Statement compiled for a task by the legacy `queryTasks`: same
dispatch, but only the array form's parameters pass through `flatArray`
(`sqlParams = q.values` for descriptors). -/
def taskStatementOld (task : BatchTask) : JsValue × List JsValue :=
  match task with
  | .descriptor d =>
    let q := if d.whereFields.isSome then buildUpdateQuery d else buildInsertQuery d
    (.str q.sql, q.values)
  | .raw item => (item.headD .undefined, flatArray (item.drop 1))

/-- `for (let item of list) { … results.push(result.rows); }` of the current
`queryArray`: runs the tasks in order, stops at the first driver error.
Returns the list of positions at which `client.query` was invoked (in
invocation order) and either the collected row lists or the first error. -/
def queryArrayLoop (exec : Nat → JsValue × List JsValue → Except JsValue (List JsValue)) :
    List BatchTask → Nat → List Nat × Except JsValue (List JsValue)
  | [], _ => ([], .ok [])
  | task :: rest, idx =>
    match exec idx (taskStatementNew task) with
    | .error e => ([idx], .error e)
    | .ok rows =>
      let r := queryArrayLoop exec rest (idx + 1)
      (idx :: r.1,
       match r.2 with
       | .ok rs => .ok (.arr rows :: rs)
       | .error e => .error e)

/-- Current `queryArray`: on success the callback receives
`[null].concat(results)` (promise mode resolves with `results`); on the
first error it receives `(err, null)` (promise mode rejects with `err`).
Result: (positions executed, callback argument list). -/
def queryArray (exec : Nat → JsValue × List JsValue → Except JsValue (List JsValue))
    (list : List BatchTask) : List Nat × List JsValue :=
  let r := queryArrayLoop exec list 0
  (r.1,
   match r.2 with
   | .ok results => .null :: results
   | .error e => [e, .null])

/-- The entry the legacy `queryTasks` records for one task:
`rows = result.rows or []`, then
`if (isObject(task) && rows.length === 1) rows = rows[0]` — a Statement
Descriptor whose result holds exactly one row is unwrapped to that row. -/
def queryTasksRecorded (task : BatchTask) (rows : List JsValue) : JsValue :=
  match task, rows with
  | .descriptor _, [r] => r
  | _, _ => .arr rows

/-- `sqlQuery !== 'BEGIN'` is false exactly for the string `'BEGIN'`. -/
def isBeginSql : JsValue → Bool
  | .str s => s == "BEGIN"
  | _ => false

/-- Legacy `queryTasks` loop: sequential; on a driver error the failing
task's (empty) rows are pushed and the error is reported with all results
collected so far; on success the rows are pushed unless the statement was
the literal string `'BEGIN'`.  Returns (recorded results, first error). -/
def queryTasksRun (exec : Nat → JsValue × List JsValue → Except JsValue (List JsValue)) :
    List BatchTask → Nat → List JsValue × Option JsValue
  | [], _ => ([], none)
  | task :: rest, idx =>
    let stmt := taskStatementOld task
    match exec idx stmt with
    | .error e => ([queryTasksRecorded task []], some e)
    | .ok rows =>
      let r := queryTasksRun exec rest (idx + 1)
      ((if isBeginSql stmt.1 then r.1 else queryTasksRecorded task rows :: r.1),
       r.2)

/-! ## Transaction handle (current `getTransactionObject`)

The handle closes over one pooled client.  `TxState` records the
`isActive` flag, how many times `client.release()` has run, and the SQL
commands issued on the held client (in order).  Mirroring the source, none
of the three methods consults `isActive`; it is only ever written. -/

structure TxState where
  isActive : Bool
  releaseCount : Nat
  clientQueries : List String
deriving Repr, DecidableEq

/-- The state `getTransactionObject` starts from: `isActive: true`, no
release yet, no command issued by the handle. -/
def txInit : TxState := { isActive := true, releaseCount := 0, clientQueries := [] }

/-- `transaction.commit(callback)`: unconditionally runs
`client.query('COMMIT', cb)`; the callback then runs `client.release()`,
sets `isActive = false` and delivers `err` or success.  `res` is the
driver's outcome for the COMMIT round-trip (`none` = success). -/
def txCommit (res : Option JsValue) (s : TxState) : TxState × Option JsValue :=
  ({ isActive := false, releaseCount := s.releaseCount + 1,
     clientQueries := s.clientQueries ++ ["COMMIT"] }, res)

/-- `transaction.rollback(callback)`: identical shape with `'ROLLBACK'`. -/
def txRollback (res : Option JsValue) (s : TxState) : TxState × Option JsValue :=
  ({ isActive := false, releaseCount := s.releaseCount + 1,
     clientQueries := s.clientQueries ++ ["ROLLBACK"] }, res)

/-- `transaction.query(sql, …)` on the string path
(`transactionQueryStandard`): issues the statement on the held client and
forwards the driver outcome.  The source performs no `isActive` check on
any `transaction.query` path, so the statement is issued whatever the
state. -/
def txQuery (sql : String) (res : Except JsValue (List JsValue)) (s : TxState) :
    TxState × Except JsValue (List JsValue) :=
  ({ s with clientQueries := s.clientQueries ++ [sql] }, res)

/-! ## `newTransaction` (current version)

```
try {
    let client = await pool.connect();
    await client.query('BEGIN');
    let transaction = getTransactionObject(client);
    …deliver transaction…
} catch (err) {
    if (client) { client.release(); }
    …deliver err…
}
```
`client` is declared with `let` inside the `try` block, so it is not in
scope in the `catch` block: as soon as the catch body evaluates
`if (client)` it raises `ReferenceError: client is not defined` inside the
async wrapper.  Consequently on a failed `pool.connect()` or a failed
`BEGIN` neither the user callback nor `pr.reject` ever runs and the
returned promise never settles; the connection (when one was obtained) is
never released. -/

inductive NewTxOutcome where
  | delivered
  | deliveredError (e : JsValue)
  | referenceErrorCrash
deriving Repr

structure NewTxResult where
  acquired : Bool
  released : Nat
  outcome : NewTxOutcome
deriving Repr

/-- Outcome of `newTransaction` as a function of the pool and BEGIN
round-trips.  `delivered` means the caller received the transaction object
of `getTransactionObject` (initial state `txInit`);
`referenceErrorCrash` means the catch block crashed on the out-of-scope
`client` and nothing was delivered. -/
def newTransaction (connectRes : Except JsValue Unit) (beginRes : Except JsValue Unit) :
    NewTxResult :=
  match connectRes with
  | .error _ => { acquired := false, released := 0, outcome := .referenceErrorCrash }
  | .ok _ =>
    match beginRes with
    | .error _ => { acquired := true, released := 0, outcome := .referenceErrorCrash }
    | .ok _ => { acquired := true, released := 0, outcome := .delivered }

/-! ## Top-level dispatch (`query`) and the `insert`/`update` wrappers -/

inductive QueryPath where
  | standard
  | objectPath
  | arrayPath
deriving Repr, DecidableEq

/-- What a call observably does before any driver round-trip: how many
times `pool.connect()` is awaited, which error (if any) is delivered
immediately through `callback(err, null)` / `pr.reject(err)`, and which
executor the arguments were dispatched to. -/
structure DispatchOutcome where
  poolConnects : Nat
  errorDelivered : Option JsValue
  path : Option QueryPath
deriving Repr

/-- The error object the `query` dispatcher builds for an unrecognized
first argument. -/
def invalidQueryError : JsValue := .obj [("error", .str "Invalid query type")]

/-- Current `query(...args)`: dispatch on the first argument — string →
`queryStandard`, plain object → `queryObject`, array → `queryArray` (each
of which immediately awaits one `pool.connect()`); anything else delivers
`{error: 'Invalid query type'}` without touching the pool. -/
def query (q : JsValue) : DispatchOutcome :=
  if isString q then
    { poolConnects := 1, errorDelivered := none, path := some .standard }
  else if isObject q then
    { poolConnects := 1, errorDelivered := none, path := some .objectPath }
  else if isArray q then
    { poolConnects := 1, errorDelivered := none, path := some .arrayPath }
  else
    { poolConnects := 0, errorDelivered := some invalidQueryError, path := none }

/-- The error object the `insert`/`update` wrappers build for a non-object
argument (`funcName` is `"insert"` or `"update"`). -/
def invalidParamsError (funcName : String) : JsValue :=
  .obj [("error", .str ("Invalid parameters for " ++ funcName ++ "()"))]

/-- `module.exports.insert`: a plain object goes to `queryObject` (which
awaits one `pool.connect()`); anything else delivers
`{error: 'Invalid parameters for insert()'}` without touching the pool. -/
def insert (obj : JsValue) : DispatchOutcome :=
  if isObject obj then
    { poolConnects := 1, errorDelivered := none, path := some .objectPath }
  else
    { poolConnects := 0, errorDelivered := some (invalidParamsError "insert"),
      path := none }

/-- `module.exports.update`: same wrapper with `funcName = "update"`. -/
def update (obj : JsValue) : DispatchOutcome :=
  if isObject obj then
    { poolConnects := 1, errorDelivered := none, path := some .objectPath }
  else
    { poolConnects := 0, errorDelivered := some (invalidParamsError "update"),
      path := none }

/-! ## Specification-side companions for the flattener -/

mutual

/-- Depth-first left-to-right scalar sequence of a value, as the spec
describes flattening: sequences (arrays) flatten recursively, everything
else — strings and plain objects included — is a scalar. -/
def dfScalars : JsValue → List JsValue
  | .arr elems => dfScalarsList elems
  | v => [v]

def dfScalarsList : List JsValue → List JsValue
  | [] => []
  | v :: rest => dfScalars v ++ dfScalarsList rest

end

mutual

/-- No plain object reachable through array nesting carries a `length`
property (the values inside scalar objects are never inspected by
`flatArray`, so they need no constraint). -/
def noLenObj : JsValue → Bool
  | .arr elems => noLenObjList elems
  | .obj props => (lookupProp props "length").isNone
  | _ => true

def noLenObjList : List JsValue → Bool
  | [] => true
  | v :: rest => noLenObj v && noLenObjList rest

end

/-- On argument lists whose arrays nest no `length`-bearing plain object,
`flatArray` is exactly the spec's depth-first scalar flattening. -/
theorem flatArray_eq_dfScalars :
    ∀ args : List JsValue, noLenObjList args = true →
      flatArray args = dfScalarsList args := by
  intro args
  induction args using flatArray.induct with
  | case1 =>
    intro _
    rw [flatArray_nil]
    rfl
  | case2 a rest hlike ih1 ih2 =>
    intro h
    simp only [noLenObjList, Bool.and_eq_true] at h
    rw [flatArray_cons, if_pos hlike]
    cases a with
    | arr elems =>
      rw [ih1 h.1, ih2 h.2]
      rfl
    | obj props =>
      exfalso
      have hnone : (lookupProp props "length").isNone = true := h.1
      rw [Option.isNone_iff_eq_none] at hnone
      simp [isArrayLike, hnone] at hlike
    | undefined => simp [isArrayLike] at hlike
    | null => simp [isArrayLike] at hlike
    | bool b => simp [isArrayLike] at hlike
    | num n => simp [isArrayLike] at hlike
    | str s => simp [isArrayLike] at hlike
  | case3 a rest hlike ih =>
    intro h
    simp only [noLenObjList, Bool.and_eq_true] at h
    rw [flatArray_cons, if_neg (by simp [hlike])]
    rw [ih h.2]
    cases a with
    | arr elems => simp [isArrayLike] at hlike
    | undefined => rfl
    | null => rfl
    | bool b => rfl
    | num n => rfl
    | str s => rfl
    | obj props => rfl

/-! ## Characterizations of the builders' loops -/

theorem insertValuesFrags_values (t : String) (fs : List (String × JsValue)) (p : Nat) :
    (insertValuesFrags t fs p).2.2 =
      (fs.filter (fun fv => !(sortOrderAuto fv.1 fv.2))).map Prod.snd := by
  induction fs generalizing p with
  | nil => rfl
  | cons fv rest ih =>
    obtain ⟨field, val⟩ := fv
    by_cases h : sortOrderAuto field val = true
    · simp [insertValuesFrags, h, ih, List.filter_cons]
    · simp [insertValuesFrags, h, ih, List.filter_cons]

theorem insertValuesFrags_pIndex (t : String) (fs : List (String × JsValue)) (p : Nat) :
    (insertValuesFrags t fs p).2.1 =
      p + (fs.filter (fun fv => !(sortOrderAuto fv.1 fv.2))).length := by
  induction fs generalizing p with
  | nil => simp [insertValuesFrags]
  | cons fv rest ih =>
    obtain ⟨field, val⟩ := fv
    by_cases h : sortOrderAuto field val = true
    · simp [insertValuesFrags, h, ih, List.filter_cons]
    · simp [insertValuesFrags, h, ih, List.filter_cons]
      omega

theorem buildInsertQuery_values (data : QueryData) :
    (buildInsertQuery data).values =
      (data.fields.filter (fun fv => !(sortOrderAuto fv.1 fv.2))).map Prod.snd :=
  insertValuesFrags_values data.table data.fields 0

/-- The fragment the VALUES loop emits for the field at 0-based position
`j`: the COALESCE subquery for the sentinel, otherwise the placeholder
numbered by the running `pIndex` after the first `j` fields, plus the
separator. -/
theorem insertValuesFrags_getD (t : String) :
    ∀ (fs : List (String × JsValue)) (p j : Nat), j < fs.length →
    (insertValuesFrags t fs p).1.getD j "" =
      (if sortOrderAuto (fs.getD j ("", .undefined)).1 (fs.getD j ("", .undefined)).2
       then coalesceSubquery t
       else "$" ++ toString ((insertValuesFrags t (fs.take j) p).2.1 + 1))
      ++ (if j + 1 = fs.length then " " else ", ")
  | [], p, j, h => by simp at h
  | (field, val) :: rest, p, 0, h => by
    by_cases ha : sortOrderAuto field val = true
    · cases rest with
      | nil => simp [insertValuesFrags, ha]
      | cons r rs => simp [insertValuesFrags, ha]
    · cases rest with
      | nil => simp [insertValuesFrags, ha]
      | cons r rs => simp [insertValuesFrags, ha]
  | (field, val) :: rest, p, j + 1, h => by
    have hlt : j < rest.length := by simpa using h
    by_cases ha : sortOrderAuto field val = true
    · have ih := insertValuesFrags_getD t rest p j hlt
      simpa [insertValuesFrags, ha] using ih
    · have ih := insertValuesFrags_getD t rest (p + 1) j hlt
      simpa [insertValuesFrags, ha] using ih

theorem updateSetFrags_values (fs : List (String × JsValue)) (i : Nat) :
    (updateSetFrags fs i).2 = fs.map Prod.snd := by
  induction fs generalizing i with
  | nil => rfl
  | cons fv rest ih =>
    obtain ⟨field, val⟩ := fv
    simp [updateSetFrags, ih]

theorem updateWhereFrags_values (n : Nat) (ws : List (String × JsValue)) (i : Nat) :
    (updateWhereFrags n ws i).2 = ws.map Prod.snd := by
  induction ws generalizing i with
  | nil => rfl
  | cons fv rest ih =>
    obtain ⟨field, val⟩ := fv
    simp [updateWhereFrags, ih]

/-- The fragment the SET loop emits for the field at 0-based position `j`
when the loop starts at index `i`: merge (`col = col || $n`) for a
non-empty plain-object value, replacement (`col = $n`) otherwise, with
`n = i + j + 1`, plus the separator. -/
theorem updateSetFrags_getD :
    ∀ (fs : List (String × JsValue)) (i j : Nat), j < fs.length →
    (updateSetFrags fs i).1.getD j "" =
      (if isNonEmptyObject (fs.getD j ("", .undefined)).2
       then (fs.getD j ("", .undefined)).1 ++ " = " ++ (fs.getD j ("", .undefined)).1
            ++ " || $" ++ toString (i + j + 1)
       else (fs.getD j ("", .undefined)).1 ++ " = $" ++ toString (i + j + 1))
      ++ (if j + 1 = fs.length then " " else ", ")
  | [], i, j, h => by simp at h
  | (field, val) :: rest, i, 0, h => by
    by_cases hm : isNonEmptyObject val = true
    · cases rest with
      | nil => simp [updateSetFrags, hm]
      | cons r rs => simp [updateSetFrags, hm]
    · cases rest with
      | nil => simp [updateSetFrags, hm]
      | cons r rs => simp [updateSetFrags, hm]
  | (field, val) :: rest, i, j + 1, h => by
    have hlt : j < rest.length := by simpa using h
    have ih := updateSetFrags_getD rest (i + 1) j hlt
    have harith : i + 1 + j + 1 = i + (j + 1) + 1 := by omega
    rw [harith] at ih
    simpa [updateSetFrags] using ih

/-! ## Claim C3 — the documented buildUpdate scenario -/

/-- The descriptor of the spec's scenario:
`{table:'artists', fields:{first_name:'Mister'}, where:{id:38}, returnValue:'*'}`. -/
def artistsUpdateData : QueryData :=
  { table := "artists", fields := [("first_name", .str "Mister")],
    whereFields := some [("id", .num 38)], returnValue := .str "*" }

/-- C3 counterexample: on the scenario descriptor the built `sql` is not the
single-spaced string the claim states — the source appends the last SET
fragment's trailing blank and then `' WHERE '` (and likewise before
`' RETURNING '`), producing two spaces at both junctions. -/
theorem c3_buildUpdate_scenario_sql_ne :
    (buildUpdateQuery artistsUpdateData).sql ≠
      "UPDATE artists SET first_name = $1 WHERE id = $2 RETURNING *" := by
  decide

/-- C3 (amended): on the scenario descriptor `buildUpdateQuery` returns
`sql = "UPDATE artists SET first_name = $1  WHERE id = $2  RETURNING *"`
(two spaces before `WHERE` and before `RETURNING`) and
`values = ['Mister', 38]`. -/
theorem c3_buildUpdate_scenario :
    buildUpdateQuery artistsUpdateData =
      { sql := "UPDATE artists SET first_name = $1  WHERE id = $2  RETURNING *",
        values := [.str "Mister", .num 38] } := by
  rfl

/-! ## Claim C1 — transaction handle after commit/rollback -/

/-- C1 (code bug evidence): the current `getTransactionObject` writes
`isActive` but never reads it.  Starting from `txInit`, a first successful
`commit()` releases the client and deactivates the handle; a second
`commit()` call is not a no-op: it issues `COMMIT` again and runs
`client.release()` a second time (release count 2), and a later
`transaction.query` still issues its statement on the released client —
against the claim's "released exactly once, never re-released" and
"second commit/rollback is a no-op or reported error". -/
theorem c1_transaction_double_release :
    (txCommit none txInit).1.releaseCount = 1
  ∧ (txCommit none txInit).1.isActive = false
  ∧ (txCommit none ((txCommit none txInit).1)).1.releaseCount = 2
  ∧ (txQuery "SELECT 1" (.ok []) ((txCommit none ((txCommit none txInit).1)).1)).1.clientQueries
      = ["COMMIT", "COMMIT", "SELECT 1"] :=
  ⟨rfl, rfl, rfl, rfl⟩

/-! ## Claim C4 — BEGIN failure in newTransaction -/

/-- C4 (code bug evidence): when `pool.connect()` succeeds and the `BEGIN`
round-trip fails, `newTransaction` never delivers a transaction object —
but it does not propagate the BEGIN error either: the catch block reads the
out-of-scope `client` binding and crashes with a ReferenceError, so neither
the callback nor the promise ever receives the error, and the acquired
connection is never released. -/
theorem c4_begin_failure_reference_error :
    ∀ e : JsValue,
      newTransaction (.ok ()) (.error e) =
        { acquired := true, released := 0, outcome := .referenceErrorCrash } :=
  fun _ => rfl

/-! ## Claim C8 — flatArray -/

/-- A plain object whose only property is `length: 0`. -/
def lengthZeroObj : JsValue := .obj [("length", .num 0)]

/-- C8 counterexample: `flatArray` does not treat every structured
non-sequence value as a scalar — a plain object carrying a `length`
property passes the `arg.length !== undefined` test and is flattened as an
array-like: `flatArray({length: 0})` is `[]`, not `[{length: 0}]`. -/
theorem c8_flatArray_length_obj_flattened :
    flatArray [lengthZeroObj] = [] ∧ flatArray [lengthZeroObj] ≠ [lengthZeroObj] := by
  have h : flatArray [lengthZeroObj] = [] := by
    rw [flatArray_cons]
    simp [isArrayLike, lengthZeroObj, lookupProp, isUndefined, spreadArgs,
      jsToLength, flatArray_nil]
  exact ⟨h, by simp [h]⟩

/-- C8 (amended): `flatArray` returns the scalars in depth-first
left-to-right order, leaves strings whole and treats plain objects as
scalars, provided no plain object reachable through array nesting exposes a
`length` property (such an object is instead treated as array-like and
flattened); in particular
`flatArray(1, [2, [3]], '4') = [1, 2, 3, '4']`. -/
theorem c8_flatArray_flattening :
    flatArray [.num 1, .arr [.num 2, .arr [.num 3]], .str "4"]
      = [.num 1, .num 2, .num 3, .str "4"]
  ∧ ∀ args : List JsValue, noLenObjList args = true →
      flatArray args = dfScalarsList args := by
  constructor
  · have h := flatArray_eq_dfScalars
      [.num 1, .arr [.num 2, .arr [.num 3]], .str "4"] rfl
    rw [h]
    rfl
  · exact flatArray_eq_dfScalars

/-- C8 witness: the flattening equation applied to a concrete argument list
holding a scalar, a nested array and a scalar plain object. -/
theorem c8_flatArray_flattening_witness :
    noLenObjList [.num 1, .arr [.num 2], .obj [("a", .num 3)]] = true
  ∧ flatArray [.num 1, .arr [.num 2], .obj [("a", .num 3)]]
      = dfScalarsList [.num 1, .arr [.num 2], .obj [("a", .num 3)]] :=
  ⟨rfl, c8_flatArray_flattening.2 [.num 1, .arr [.num 2], .obj [("a", .num 3)]] rfl⟩

/-! ## Claim C6 — the sort_order "auto" sentinel in buildInsertQuery -/

/-- C6: in `buildInsertQuery`, a field matching the exact sentinel
(`field === 'sort_order' && val === 'auto'`) emits the literal COALESCE
subquery in place of a placeholder and contributes nothing to `values`
(first conjunct: `values` holds exactly the non-sentinel field values, in
order); every other field — a truthy non-`"auto"` `sort_order` included —
emits `'$' + pIndex` where `pIndex` has been incremented only by the
bind-producing columns before it, starting at 1 (second conjunct, the
fragment at each position `j`). -/
theorem c6_insert_sort_order_auto (data : QueryData) (j : Nat)
    (h : j < data.fields.length) :
    (buildInsertQuery data).values =
      (data.fields.filter (fun fv => !(sortOrderAuto fv.1 fv.2))).map Prod.snd
  ∧ (insertValuesFrags data.table data.fields 0).1.getD j "" =
      (if sortOrderAuto (data.fields.getD j ("", .undefined)).1
            (data.fields.getD j ("", .undefined)).2
       then coalesceSubquery data.table
       else "$" ++ toString
         (((data.fields.take j).filter (fun fv => !(sortOrderAuto fv.1 fv.2))).length + 1))
      ++ (if j + 1 = data.fields.length then " " else ", ") := by
  refine ⟨buildInsertQuery_values data, ?_⟩
  have hg := insertValuesFrags_getD data.table data.fields 0 j h
  rw [insertValuesFrags_pIndex, Nat.zero_add] at hg
  exact hg

/-- Fields for the C6 witness: the sentinel first, then two ordinary
columns (so the first bind placeholder is `$1` on the second column). -/
def autoInsertData : QueryData :=
  { table := "albums",
    fields := [("sort_order", .str "auto"), ("title", .str "x"), ("year", .num 2017)],
    whereFields := none, returnValue := .undefined }

/-- C6 witness: the sentinel field of `autoInsertData` (position 0) emits
the COALESCE subquery and the values list skips it. -/
theorem c6_insert_sort_order_auto_witness :
    0 < autoInsertData.fields.length
  ∧ ((buildInsertQuery autoInsertData).values =
      (autoInsertData.fields.filter (fun fv => !(sortOrderAuto fv.1 fv.2))).map Prod.snd
  ∧ (insertValuesFrags autoInsertData.table autoInsertData.fields 0).1.getD 0 "" =
      (if sortOrderAuto (autoInsertData.fields.getD 0 ("", .undefined)).1
            (autoInsertData.fields.getD 0 ("", .undefined)).2
       then coalesceSubquery autoInsertData.table
       else "$" ++ toString
         (((autoInsertData.fields.take 0).filter
            (fun fv => !(sortOrderAuto fv.1 fv.2))).length + 1))
      ++ (if 0 + 1 = autoInsertData.fields.length then " " else ", ")) :=
  ⟨by decide, c6_insert_sort_order_auto autoInsertData 0 (by decide)⟩

/-! ## Claim C7 — merge vs replace in buildUpdateQuery -/

/-- C7: in `buildUpdateQuery`, the field at 0-based position `j` renders
`col = col || $n` when its value is a non-empty plain object and
`col = $n` otherwise (empty object or non-object), with `n = j + 1` the
field's 1-based position; and every field contributes exactly one entry to
`values` (which is the field values in order followed by the where
values). -/
theorem c7_update_merge_fields (data : QueryData) (j : Nat)
    (h : j < data.fields.length) :
    (buildUpdateQuery data).values =
      data.fields.map Prod.snd ++ (data.whereFields.getD []).map Prod.snd
  ∧ (updateSetFrags data.fields 0).1.getD j "" =
      (if isNonEmptyObject (data.fields.getD j ("", .undefined)).2
       then (data.fields.getD j ("", .undefined)).1 ++ " = "
            ++ (data.fields.getD j ("", .undefined)).1 ++ " || $" ++ toString (j + 1)
       else (data.fields.getD j ("", .undefined)).1 ++ " = $" ++ toString (j + 1))
      ++ (if j + 1 = data.fields.length then " " else ", ") := by
  constructor
  · show (updateSetFrags data.fields 0).2
        ++ (updateWhereFrags data.fields.length (data.whereFields.getD []) 0).2 = _
    rw [updateSetFrags_values, updateWhereFrags_values]
  · have hg := updateSetFrags_getD data.fields 0 j h
    simpa using hg

/-- Fields for the C7 witness: a non-empty structured value (merge), then a
string (replace); one where key. -/
def mergeUpdateData : QueryData :=
  { table := "artists",
    fields := [("meta", .obj [("a", .num 1)]), ("name", .str "x")],
    whereFields := some [("id", .num 7)], returnValue := .undefined }

/-- C7 witness: position 0 of `mergeUpdateData` (a non-empty object value)
renders as a merge fragment, and the values list carries every field value
followed by the where value. -/
theorem c7_update_merge_fields_witness :
    0 < mergeUpdateData.fields.length
  ∧ ((buildUpdateQuery mergeUpdateData).values =
      mergeUpdateData.fields.map Prod.snd
        ++ (mergeUpdateData.whereFields.getD []).map Prod.snd
  ∧ (updateSetFrags mergeUpdateData.fields 0).1.getD 0 "" =
      (if isNonEmptyObject (mergeUpdateData.fields.getD 0 ("", .undefined)).2
       then (mergeUpdateData.fields.getD 0 ("", .undefined)).1 ++ " = "
            ++ (mergeUpdateData.fields.getD 0 ("", .undefined)).1 ++ " || $"
            ++ toString (0 + 1)
       else (mergeUpdateData.fields.getD 0 ("", .undefined)).1 ++ " = $"
            ++ toString (0 + 1))
      ++ (if 0 + 1 = mergeUpdateData.fields.length then " " else ", ")) :=
  ⟨by decide, c7_update_merge_fields mergeUpdateData 0 (by decide)⟩

/-! ## Claim C2 — result shape of batch tasks -/

/-- A driver oracle answering every statement with the single row
`{id: 1}`. -/
def execOneRowOk : Nat → JsValue × List JsValue → Except JsValue (List JsValue) :=
  fun _ _ => .ok [.obj [("id", .num 1)]]

/-- A single-field insert descriptor used as a concrete batch task. -/
def insertTaskData : QueryData :=
  { table := "artists", fields := [("first_name", .str "John")],
    whereFields := none, returnValue := .str "*" }

/-- C2 counterexample: in the current `queryArray`, a Statement Descriptor
task whose result set holds exactly one row is NOT unwrapped — the recorded
result is the one-element row sequence, which is a different value than the
row object itself. -/
theorem c2_queryArray_no_unwrap :
    (queryArray execOneRowOk [.descriptor insertTaskData]).2
      = [.null, .arr [.obj [("id", .num 1)]]]
  ∧ JsValue.arr [.obj [("id", .num 1)]] ≠ JsValue.obj [("id", .num 1)] :=
  ⟨rfl, by simp⟩

/-- C2 (amended): the single-row unwrapping of Statement Descriptor tasks
exists only in the legacy `queryTasks` executor — there a descriptor task
with a one-row result is recorded as the row object itself (conjuncts 1 and
4), and a raw SQL task's result is never unwrapped whatever its length
(conjunct 2); the current `queryArray` executor records every task's result
as the full row sequence, never unwrapping (conjunct 3). -/
theorem c2_batch_result_shape :
    (∀ (d : QueryData) (r : JsValue), queryTasksRecorded (.descriptor d) [r] = r)
  ∧ (∀ (item : List JsValue) (rows : List JsValue),
      queryTasksRecorded (.raw item) rows = .arr rows)
  ∧ (∀ (exec : Nat → JsValue × List JsValue → Except JsValue (List JsValue))
       (tasks : List BatchTask) (idx : Nat) (rs : List JsValue),
      (queryArrayLoop exec tasks idx).2 = .ok rs →
        ∀ v ∈ rs, ∃ rows, v = .arr rows)
  ∧ (∀ (exec : Nat → JsValue × List JsValue → Except JsValue (List JsValue))
       (d : QueryData) (rest : List BatchTask) (idx : Nat) (r : JsValue),
      exec idx (taskStatementOld (.descriptor d)) = .ok [r] →
      isBeginSql (taskStatementOld (.descriptor d)).1 = false →
      (queryTasksRun exec (.descriptor d :: rest) idx).1.headD .undefined = r) := by
  refine ⟨fun d r => rfl, fun item rows => ?_, ?_, ?_⟩
  · cases rows with
    | nil => rfl
    | cons a l => cases l <;> rfl
  · intro exec tasks
    induction tasks with
    | nil =>
      intro idx rs hok v hv
      simp only [queryArrayLoop] at hok
      cases hok
      simp at hv
    | cons task rest ih =>
      intro idx rs hok v hv
      simp only [queryArrayLoop] at hok
      cases hexec : exec idx (taskStatementNew task) with
      | error e => rw [hexec] at hok; cases hok
      | ok rows =>
        rw [hexec] at hok
        cases hrec : (queryArrayLoop exec rest (idx + 1)).2 with
        | error e => simp [hrec] at hok
        | ok rsRest =>
          simp only [hrec] at hok
          cases hok
          rcases List.mem_cons.mp hv with hv0 | hvr
          · exact ⟨rows, hv0⟩
          · exact ih (idx + 1) rsRest hrec v hvr
  · intro exec d rest idx r hexec hbegin
    simp [queryTasksRun, hexec, hbegin, queryTasksRecorded]

/-- C2 witness: the legacy unwrap applied to a concrete one-task batch —
`queryTasks` records the single row object itself for the insert
descriptor. -/
theorem c2_batch_result_shape_witness :
    execOneRowOk 0 (taskStatementOld (.descriptor insertTaskData))
      = .ok [.obj [("id", .num 1)]]
  ∧ isBeginSql (taskStatementOld (.descriptor insertTaskData)).1 = false
  ∧ (queryTasksRun execOneRowOk [.descriptor insertTaskData] 0).1.headD .undefined
      = .obj [("id", .num 1)] :=
  ⟨rfl, rfl,
   c2_batch_result_shape.2.2.2 execOneRowOk insertTaskData [] 0
     (.obj [("id", .num 1)]) rfl rfl⟩

/-! ## Claim C5 — sequential batch execution and abort on error -/

/-- Failure run of the `queryArray` loop: when the tasks before position
`i` succeed and task `i`'s statement fails, the loop invokes the driver
exactly on positions `k … k+i` in order and reports the error. -/
theorem queryArrayLoop_fail
    (exec : Nat → JsValue × List JsValue → Except JsValue (List JsValue)) :
    ∀ (tasks : List BatchTask) (k i : Nat) (e : JsValue),
      i < tasks.length →
      (∀ j, j < i →
        ∃ rows, exec (k + j) (taskStatementNew (tasks.getD j (.raw []))) = .ok rows) →
      exec (k + i) (taskStatementNew (tasks.getD i (.raw []))) = .error e →
      queryArrayLoop exec tasks k = ((List.range (i + 1)).map (k + ·), .error e)
  | [], k, i, e, h, _, _ => by simp at h
  | task :: rest, k, i, e, h, hok, herr => by
    cases i with
    | zero =>
      simp only [List.getD_cons_zero, Nat.add_zero] at herr
      simp [queryArrayLoop, herr, List.range_succ]
    | succ i0 =>
      obtain ⟨rows0, h0⟩ := hok 0 (Nat.succ_pos i0)
      simp only [List.getD_cons_zero, Nat.add_zero] at h0
      have hokRest : ∀ j, j < i0 →
          ∃ rows, exec (k + 1 + j) (taskStatementNew (rest.getD j (.raw []))) = .ok rows := by
        intro j hj
        obtain ⟨rows, hr⟩ := hok (j + 1) (Nat.succ_lt_succ hj)
        refine ⟨rows, ?_⟩
        have : k + (j + 1) = k + 1 + j := by omega
        rw [this] at hr
        simpa using hr
      have herrRest :
          exec (k + 1 + i0) (taskStatementNew (rest.getD i0 (.raw []))) = .error e := by
        have : k + (i0 + 1) = k + 1 + i0 := by omega
        rw [this] at herr
        simpa using herr
      have hrec := queryArrayLoop_fail exec rest (k + 1) i0 e (by simpa using h)
        hokRest herrRest
      simp only [queryArrayLoop, h0, hrec]
      have hmap : List.map (fun x => k + x) (List.range (i0 + 1 + 1))
          = k :: List.map (fun x => k + 1 + x) (List.range (i0 + 1)) := by
        rw [List.range_succ_eq_map, List.map_cons, List.map_map]
        simp only [Nat.add_zero]
        congr 1
        apply List.map_congr_left
        intro x _
        simp only [Function.comp_apply]
        omega
      rw [hmap]

/-- C5 (amended): the current `queryArray` runs the tasks strictly in input
order — when every task before position `i` succeeds and task `i` fails,
the driver is invoked exactly on positions `0 … i` in that order (no task
after the failing one executes), and the reported outcome is the error
alone: the callback receives `(err, null)` (the promise rejects with
`err`), the earlier successful results being discarded. -/
theorem c5_batch_abort_on_error
    (exec : Nat → JsValue × List JsValue → Except JsValue (List JsValue))
    (tasks : List BatchTask) (i : Nat) (e : JsValue)
    (h : i < tasks.length)
    (hok : ∀ j, j < i →
      ∃ rows, exec j (taskStatementNew (tasks.getD j (.raw []))) = .ok rows)
    (herr : exec i (taskStatementNew (tasks.getD i (.raw []))) = .error e) :
    (queryArray exec tasks).1 = List.range (i + 1)
  ∧ (queryArray exec tasks).2 = [e, .null] := by
  have h0 := queryArrayLoop_fail exec tasks 0 i e h
    (by intro j hj; simpa using hok j hj) (by simpa using herr)
  constructor
  · show (queryArrayLoop exec tasks 0).1 = _
    rw [h0]
    simp
  · show (match (queryArrayLoop exec tasks 0).2 with
      | .ok results => JsValue.null :: results
      | .error err => [err, .null]) = [e, .null]
    rw [h0]

/-- A driver oracle: position 0 answers one row, every later position
fails with `{error: 'boom'}`. -/
def execFailSecond : Nat → JsValue × List JsValue → Except JsValue (List JsValue) :=
  fun idx _ =>
    if idx = 0 then .ok [.obj [("n", .num 1)]]
    else .error (.obj [("error", .str "boom")])

/-- Two raw SQL batch tasks. -/
def twoRawTasks : List BatchTask :=
  [.raw [.str "SELECT 1"], .raw [.str "SELECT 2"]]

/-- C5 witness: on the two-task batch whose second task fails, `queryArray`
executes positions 0 and 1 in order and reports `(err, null)`. -/
theorem c5_batch_abort_on_error_witness :
    1 < twoRawTasks.length
  ∧ ((queryArray execFailSecond twoRawTasks).1 = List.range (1 + 1)
  ∧ (queryArray execFailSecond twoRawTasks).2 = [.obj [("error", .str "boom")], .null]) :=
  ⟨by decide,
   c5_batch_abort_on_error execFailSecond twoRawTasks 1 (.obj [("error", .str "boom")])
     (by decide)
     (by
       intro j hj
       cases j with
       | zero => exact ⟨[.obj [("n", .num 1)]], rfl⟩
       | succ m => omega)
     rfl⟩

/-- C5 counterexample: the claim's "the reported outcome carries task i's
error together with the results of the earlier successful tasks" fails —
on the two-task batch whose first task succeeded with one row and whose
second task fails, the callback argument list is exactly `[err, null]`: the
first task's recorded result (the row sequence) appears nowhere in it. -/
theorem c5_earlier_results_discarded :
    (queryArray execFailSecond twoRawTasks).2 = [.obj [("error", .str "boom")], .null]
  ∧ JsValue.arr [.obj [("n", .num 1)]] ∉ (queryArray execFailSecond twoRawTasks).2 := by
  refine ⟨rfl, ?_⟩
  show JsValue.arr [.obj [("n", .num 1)]]
      ∉ ([.obj [("error", .str "boom")], .null] : List JsValue)
  simp

/-! ## Claim C9 — invalid first argument to query -/

/-- C9: a first argument that is neither a string, nor a plain object, nor
an array makes `query` deliver `{error: 'Invalid query type'}` (through the
callback's error slot or the rejected promise) with zero `pool.connect()`
calls and no executor dispatched. -/
theorem c9_invalid_query_type (q : JsValue)
    (hs : isString q = false) (ho : isObject q = false) (ha : isArray q = false) :
    query q = { poolConnects := 0, errorDelivered := some invalidQueryError,
                path := none } := by
  simp [query, hs, ho, ha]

/-- C9 witness: the number `7` is none of the three accepted shapes and is
rejected without a pool acquisition. -/
theorem c9_invalid_query_type_witness :
    isString (.num 7) = false ∧ isObject (.num 7) = false ∧ isArray (.num 7) = false
  ∧ query (.num 7) = { poolConnects := 0, errorDelivered := some invalidQueryError,
                       path := none } :=
  ⟨rfl, rfl, rfl, c9_invalid_query_type (.num 7) rfl rfl rfl⟩

/-! ## Claim C10 — insert/update wrappers -/

/-- C10: `insert()` and `update()` reject any non-plain-object argument
with `{error: 'Invalid parameters for <name>()'}` (callback error slot or
rejected promise) and zero `pool.connect()` calls; a plain-object argument
is the only shape that reaches `queryObject` (which then acquires a
connection). -/
theorem c10_insert_update_invalid_params :
    ∀ v : JsValue,
      (isObject v = false →
        PgQuery.insert v =
          { poolConnects := 0, errorDelivered := some (invalidParamsError "insert"),
            path := none }
      ∧ PgQuery.update v =
          { poolConnects := 0, errorDelivered := some (invalidParamsError "update"),
            path := none })
    ∧ (isObject v = true →
        PgQuery.insert v =
          { poolConnects := 1, errorDelivered := none, path := some .objectPath }
      ∧ PgQuery.update v =
          { poolConnects := 1, errorDelivered := none, path := some .objectPath }) := by
  intro v
  constructor
  · intro h
    exact ⟨by simp [PgQuery.insert, h], by simp [PgQuery.update, h]⟩
  · intro h
    exact ⟨by simp [PgQuery.insert, h], by simp [PgQuery.update, h]⟩

/-- C10 witness: the number `3` is rejected by both wrappers without a pool
acquisition; the empty plain object reaches `queryObject`. -/
theorem c10_insert_update_invalid_params_witness :
    isObject (.num 3) = false
  ∧ PgQuery.insert (.num 3) =
      { poolConnects := 0, errorDelivered := some (invalidParamsError "insert"),
        path := none }
  ∧ isObject (.obj []) = true
  ∧ PgQuery.update (.obj []) =
      { poolConnects := 1, errorDelivered := none, path := some .objectPath } :=
  ⟨rfl, ((c10_insert_update_invalid_params (.num 3)).1 rfl).1, rfl,
   ((c10_insert_update_invalid_params (.obj [])).2 rfl).2⟩

end PgQuery
